import Mathlib

/-!
# TCP echo server and client on a callback transport

A shallow embedding of `Core/Src/tcp_echo_server.c` and
`Core/Src/tcp_echo_client.c`.

* Memory is explicit: the two globals (`tcp_connection_state`, `client_state`),
  the live `malloc` blocks, and the per-handle callback registration that the
  transport keeps.
* Every call the handlers make on the transport is appended to `World.calls`,
  in program order, with the argument values it was made with.
* What the environment decides (the result of `malloc`, the value returned by
  `tcp_write`) is an explicit argument of the handler.
* A handler returns `none` when the C code would dereference or free a pointer
  that does not refer to a live object of the right type.
-/

namespace TcpEcho

/-! ## Data model -/

/-- One octet, `uint8_t`. -/
abbrev Byte := Fin 256

/-- Modelled from the spec: the transport's status type `err_t` (declared in the
lwIP headers, which are not among the sources). A signed integer code. -/
abbrev err_t := Int

/-- Modelled from the spec: the transport's "OK" status (lwIP `ERR_OK`). -/
def ERR_OK : err_t := 0

/-- Modelled from the spec: the transport-specific "insufficient resources"
status (lwIP `ERR_MEM`). -/
def ERR_MEM : err_t := -1

/-- Modelled from the spec: the transport's "abort" status (lwIP `ERR_ABRT`). -/
def ERR_ABRT : err_t := -13

/-- Modelled from the spec: the copy flag of enqueue-for-send
(lwIP `TCP_WRITE_FLAG_COPY`). -/
def TCP_WRITE_FLAG_COPY : Nat := 1

/-- `#define TCP_SERVER_BUF_SIZE 256` -/
def TCP_SERVER_BUF_SIZE : Nat := 256

/-- A data pointer as the handlers see it: `NULL`, the address of a `malloc`
block, or the address of the static `client_state` record. -/
inductive Ptr where
  | null
  | heap (a : Nat)
  | client_state
  deriving DecidableEq, Repr

/-- The functions of the two files that are installed as transport hooks. -/
inductive Callback where
  | tcp_server_recv
  | tcp_server_error
  | tcp_server_poll
  | tcp_server_accept
  | tcp_client_recv
  | tcp_client_sent
  | tcp_client_error
  | tcp_client_connected
  deriving DecidableEq, Repr

/-- Modelled from the spec: the transport's data unit (lwIP `struct pbuf`, not
among the sources): a non-empty chain of segments. `payload` is the first
segment, `next` the remaining segments of the chain. -/
structure pbuf where
  payload : List Byte
  next : List (List Byte)
  deriving DecidableEq, Repr

/-- Field `p->len`: the length of the first segment only. -/
def pbuf.len (p : pbuf) : Nat := p.payload.length

/-- Field `p->tot_len`: the length of the whole chain. -/
def pbuf.tot_len (p : pbuf) : Nat := p.payload.length + (p.next.map List.length).sum

/-- The delivered bytes of a data unit, in order: all segments of the chain. -/
def pbuf.bytes (p : pbuf) : List Byte := p.payload ++ p.next.flatten

/-- The server's `tcp_server_connection_t`. -/
structure tcp_server_connection_t where
  pcb : Option Nat
  buffer : List Byte
  buflen : Int
  deriving DecidableEq, Repr

/-- The client's `tcp_client_state_t`. -/
structure tcp_client_state_t where
  pcb : Option Nat
  retries : Int
  deriving DecidableEq, Repr

/-- Modelled from the spec: what the transport keeps per handle: the bound
context and the four hooks (lwIP `struct tcp_pcb`, not among the sources). -/
structure PcbRec where
  callback_arg : Ptr
  recv : Option Callback
  sent : Option Callback
  poll : Option Callback
  pollinterval : Nat
  errf : Option Callback
  deriving DecidableEq, Repr

/-- A handle on which nothing has been registered. -/
def PcbRec.fresh : PcbRec :=
  { callback_arg := .null, recv := none, sent := none, poll := none,
    pollinterval := 0, errf := none }

/-- The calls the two files make on the transport, with their arguments.
`tcp_write` carries the bytes found at its data pointer. -/
inductive Call where
  | tcp_arg (pcb : Nat) (arg : Ptr)
  | tcp_sent (pcb : Nat) (fn : Option Callback)
  | tcp_recv (pcb : Nat) (fn : Option Callback)
  | tcp_poll (pcb : Nat) (fn : Option Callback) (interval : Nat)
  | tcp_err (pcb : Nat) (fn : Option Callback)
  | tcp_close (pcb : Nat)
  | tcp_recved (pcb : Nat) (len : Nat)
  | tcp_write (pcb : Nat) (data : List Byte) (len : Nat) (apiflags : Nat)
  | tcp_output (pcb : Nat)
  | pbuf_free (p : pbuf)
  deriving DecidableEq, Repr

/-- The memory the handlers act on, and the log of their transport calls. -/
structure World where
  tcp_connection_state : Ptr
  client_state : tcp_client_state_t
  heap : List (Nat × tcp_server_connection_t)
  pcbs : List (Nat × PcbRec)
  calls : List Call
  deriving DecidableEq, Repr

/-! ## Memory -/

/-- The live block at address `a`, if any. -/
def heapGet (h : List (Nat × tcp_server_connection_t)) (a : Nat) :
    Option tcp_server_connection_t :=
  match h with
  | [] => none
  | e :: rest => if e.1 = a then some e.2 else heapGet rest a

/-- Overwrite the block found at address `a`. -/
def heapSet (h : List (Nat × tcp_server_connection_t)) (a : Nat)
    (v : tcp_server_connection_t) : List (Nat × tcp_server_connection_t) :=
  match h with
  | [] => []
  | e :: rest => if e.1 = a then (a, v) :: rest else e :: heapSet rest a v

/-- Remove the block at address `a`. -/
def heapFree (h : List (Nat × tcp_server_connection_t)) (a : Nat) :
    List (Nat × tcp_server_connection_t) :=
  match h with
  | [] => []
  | e :: rest => if e.1 = a then heapFree rest a else e :: heapFree rest a

/-- Read `*es` for `es` of type `tcp_server_connection_t *`. -/
def deref (w : World) (es : Ptr) : Option tcp_server_connection_t :=
  match es with
  | .heap a => heapGet w.heap a
  | _ => none

/-- Assign to fields of `*es`. -/
def modify (es : Ptr) (f : tcp_server_connection_t → tcp_server_connection_t)
    (w : World) : Option World :=
  match es with
  | .heap a =>
    match heapGet w.heap a with
    | some s => some { w with heap := heapSet w.heap a (f s) }
    | none => none
  | _ => none

/-- The library call `malloc(sizeof(tcp_server_connection_t))`. The outcome `m`
is chosen by the allocator: `none` for failure, else the address of the new
block and its indeterminate initial contents. -/
def malloc (m : Option (Nat × tcp_server_connection_t)) (w : World) : Ptr × World :=
  match m with
  | none => (.null, w)
  | some (a, blk) => (.heap a, { w with heap := (a, blk) :: w.heap })

/-- The library call `free(es)`. -/
def free (es : Ptr) (w : World) : Option World :=
  match es with
  | .null => some w
  | .heap a =>
    match heapGet w.heap a with
    | some _ => some { w with heap := heapFree w.heap a }
    | none => none
  | .client_state => none

/-! ## The transport -/

/-- The registration of handle `pcb`. -/
def pcbGet (t : List (Nat × PcbRec)) (pcb : Nat) : PcbRec :=
  match t with
  | [] => PcbRec.fresh
  | e :: rest => if e.1 = pcb then e.2 else pcbGet rest pcb

/-- Log a call and update the registration of `pcb`. -/
def pcbUpd (pcb : Nat) (f : PcbRec → PcbRec) (c : Call) (w : World) : World :=
  { w with pcbs := (pcb, f (pcbGet w.pcbs pcb)) :: w.pcbs, calls := w.calls ++ [c] }

/-- Log a call that leaves the registrations alone. -/
def call (c : Call) (w : World) : World :=
  { w with calls := w.calls ++ [c] }

/-- Modelled from the spec: bind-context-to-handle. -/
def tcp_arg (pcb : Nat) (arg : Ptr) (w : World) : World :=
  pcbUpd pcb (fun r => { r with callback_arg := arg }) (.tcp_arg pcb arg) w

/-- Modelled from the spec: set the send-completion hook. -/
def tcp_sent (pcb : Nat) (fn : Option Callback) (w : World) : World :=
  pcbUpd pcb (fun r => { r with sent := fn }) (.tcp_sent pcb fn) w

/-- Modelled from the spec: set the data-arrived hook. -/
def tcp_recv (pcb : Nat) (fn : Option Callback) (w : World) : World :=
  pcbUpd pcb (fun r => { r with recv := fn }) (.tcp_recv pcb fn) w

/-- Modelled from the spec: set the periodic-tick hook and its interval. -/
def tcp_poll (pcb : Nat) (fn : Option Callback) (interval : Nat) (w : World) : World :=
  pcbUpd pcb (fun r => { r with poll := fn, pollinterval := interval })
    (.tcp_poll pcb fn interval) w

/-- Modelled from the spec: set the error hook. -/
def tcp_err (pcb : Nat) (fn : Option Callback) (w : World) : World :=
  pcbUpd pcb (fun r => { r with errf := fn }) (.tcp_err pcb fn) w

/-- Modelled from the spec: close(handle). -/
def tcp_close (pcb : Nat) (w : World) : World := call (.tcp_close pcb) w

/-- Modelled from the spec: acknowledge-received-bytes(handle, count). -/
def tcp_recved (pcb : Nat) (len : Nat) (w : World) : World := call (.tcp_recved pcb len) w

/-- Modelled from the spec: enqueue-for-send(handle, data, copy-flag). The
value it returns is the caller's `wr` argument. -/
def tcp_write (pcb : Nat) (data : List Byte) (len : Nat) (apiflags : Nat) (w : World) : World :=
  call (.tcp_write pcb data len apiflags) w

/-- Modelled from the spec: flush-output(handle). -/
def tcp_output (pcb : Nat) (w : World) : World := call (.tcp_output pcb) w

/-- Modelled from the spec: release of a delivered data unit. -/
def pbuf_free (p : pbuf) (w : World) : World := call (.pbuf_free p) w

/-- The bytes that the chain walk of `pbuf_copy_partial` copies out of the
segments `segs`, for a request of `len` bytes starting at `offset`. -/
def pbuf_copy_walk : List (List Byte) → Nat → Nat → List Byte
  | [], _, _ => []
  | seg :: rest, len, offset =>
    if len = 0 then []
    else if offset ≠ 0 ∧ offset ≥ seg.length then
      pbuf_copy_walk rest len (offset - seg.length)
    else
      (seg.drop offset).take (min (seg.length - offset) len)
        ++ pbuf_copy_walk rest (len - min (seg.length - offset) len) 0

/-- Modelled from the spec: the transport's copy of a data unit into a buffer
(lwIP `pbuf_copy_partial`, not among the sources). Walks the chain, copies at
most `len` bytes starting at `offset` to the start of `dataptr`, and leaves the
rest of `dataptr` as it was. The result is the buffer afterwards. -/
def pbuf_copy_partial (p : pbuf) (dataptr : List Byte) (len offset : Nat) : List Byte :=
  let copied := pbuf_copy_walk (p.payload :: p.next) len offset
  copied ++ dataptr.drop copied.length

/-! ## tcp_echo_server.c -/

/-- `tcp_server_connection_close(tpcb, es)` -/
def tcp_server_connection_close (tpcb : Nat) (es : Ptr) (w : World) : Option World :=
  let w := tcp_arg tpcb .null w
  let w := tcp_sent tpcb none w
  let w := tcp_recv tpcb none w
  let w := tcp_poll tpcb none 0 w
  let w := tcp_err tpcb none w
  let w := tcp_close tpcb w
  if es ≠ .null then
    match free es w with
    | some w => some { w with tcp_connection_state := .null }
    | none => none
  else some w

/-- `tcp_server_send(tpcb, es)`; `wr` is what `tcp_write` returns. The `int`
field `buflen` is converted to the `u16_t` length parameter. -/
def tcp_server_send (tpcb : Nat) (es : Ptr) (wr : err_t) (w : World) : Option World :=
  match deref w es with
  | none => none
  | some s =>
    let len := (s.buflen % 65536).toNat
    if len > TCP_SERVER_BUF_SIZE then none
    else
      let err := wr
      let w := tcp_write tpcb (s.buffer.take len) len TCP_WRITE_FLAG_COPY w
      if err = ERR_OK then some (tcp_output tpcb w) else some w

/-- `tcp_server_recv(arg, tpcb, p, err)`; `p = none` is `NULL`, `wr` is what
`tcp_write` returns if it is called. -/
def tcp_server_recv (arg : Ptr) (tpcb : Nat) (p : Option pbuf) (err : err_t)
    (wr : err_t) (w : World) : Option (err_t × World) :=
  let es := arg
  match p with
  | some pb =>
    if err = ERR_OK then
      let w := tcp_recved tpcb pb.tot_len w
      if pb.tot_len ≤ TCP_SERVER_BUF_SIZE then
        match modify es (fun s =>
            { s with buffer := pbuf_copy_partial pb s.buffer pb.tot_len 0 }) w with
        | none => none
        | some w =>
          match modify es (fun s => { s with buflen := (pb.tot_len : Int) }) w with
          | none => none
          | some w =>
            match tcp_server_send tpcb es wr w with
            | none => none
            | some w => some (ERR_OK, pbuf_free pb w)
      else some (ERR_OK, pbuf_free pb w)
    else some (ERR_OK, w)
  | none =>
    if err = ERR_OK then
      match tcp_server_connection_close tpcb es w with
      | none => none
      | some w => some (ERR_OK, w)
    else some (ERR_OK, w)

/-- `tcp_server_poll(arg, pcb)` -/
def tcp_server_poll (_arg : Ptr) (_pcb : Nat) (w : World) : Option (err_t × World) :=
  some (ERR_OK, w)

/-- `tcp_server_error(arg, err)` -/
def tcp_server_error (arg : Ptr) (_err : err_t) (w : World) : Option World :=
  if arg ≠ .null then
    let es := arg
    match free es w with
    | some w => some { w with tcp_connection_state := .null }
    | none => none
  else some w

/-- `tcp_server_accept(arg, newpcb, err)`; `m` is the outcome of `malloc`. -/
def tcp_server_accept (_arg : Ptr) (newpcb : Nat) (_err : err_t)
    (m : Option (Nat × tcp_server_connection_t)) (w : World) : Option (err_t × World) :=
  if w.tcp_connection_state ≠ .null then
    match tcp_server_connection_close newpcb .null w with
    | some w => some (ERR_ABRT, w)
    | none => none
  else
    let r := malloc m w
    let w := { r.2 with tcp_connection_state := r.1 }
    if w.tcp_connection_state = .null then some (ERR_MEM, w)
    else
      match modify w.tcp_connection_state (fun s => { s with pcb := some newpcb }) w with
      | none => none
      | some w =>
        match modify w.tcp_connection_state (fun s => { s with buflen := 0 }) w with
        | none => none
        | some w =>
          let w := tcp_arg newpcb w.tcp_connection_state w
          let w := tcp_recv newpcb (some .tcp_server_recv) w
          let w := tcp_err newpcb (some .tcp_server_error) w
          let w := tcp_poll newpcb (some .tcp_server_poll) 2 w
          some (ERR_OK, w)

/-! ## tcp_echo_client.c -/

/-- Assign to fields of `*es` for `es` of type `tcp_client_state_t *`. -/
def modify_client (es : Ptr) (f : tcp_client_state_t → tcp_client_state_t)
    (w : World) : Option World :=
  match es with
  | .client_state => some { w with client_state := f w.client_state }
  | _ => none

/-- `tcp_client_connection_close(tpcb, es)` -/
def tcp_client_connection_close (tpcb : Nat) (es : Ptr) (w : World) : Option World :=
  let w := tcp_arg tpcb .null w
  let w := tcp_sent tpcb none w
  let w := tcp_recv tpcb none w
  let w := tcp_poll tpcb none 0 w
  let w := tcp_err tpcb none w
  let w := tcp_close tpcb w
  modify_client es (fun s => { s with pcb := none }) w

/-- `tcp_client_recv(arg, tpcb, p, err)`; `wr` is what `tcp_write` returns.
The data passed to `tcp_write` is `p->payload` with length `p->len`. -/
def tcp_client_recv (arg : Ptr) (tpcb : Nat) (p : Option pbuf) (err : err_t)
    (wr : err_t) (w : World) : Option (err_t × World) :=
  match p with
  | some pb =>
    if err = ERR_OK then
      let w := tcp_recved tpcb pb.tot_len w
      let wr_err := wr
      let w := tcp_write tpcb (pb.payload.take pb.len) pb.len TCP_WRITE_FLAG_COPY w
      let w := if wr_err = ERR_OK then tcp_output tpcb w else w
      some (ERR_OK, pbuf_free pb w)
    else some (ERR_OK, w)
  | none =>
    if err = ERR_OK then
      match tcp_client_connection_close tpcb arg w with
      | none => none
      | some w => some (ERR_OK, w)
    else some (ERR_OK, w)

/-- `tcp_client_sent(arg, tpcb, len)` -/
def tcp_client_sent (_arg : Ptr) (_tpcb : Nat) (_len : Nat) (w : World) :
    Option (err_t × World) :=
  some (ERR_OK, w)

/-- `tcp_client_error(arg, err)` -/
def tcp_client_error (arg : Ptr) (_err : err_t) (w : World) : Option World :=
  if arg ≠ .null then
    some { w with client_state := { w.client_state with pcb := none } }
  else some w

/-- The string literal `"Hello STM32 LwIP Client!\n"` as it lies in memory:
its characters followed by the terminating zero. -/
def message : List Byte :=
  ("Hello STM32 LwIP Client!\n".toList.map fun c => (Fin.ofNat c.toNat : Byte)) ++ [0]

/-- The library call `strlen`: the number of bytes before the first zero. -/
def strlen (s : List Byte) : Nat :=
  match s with
  | [] => 0
  | c :: rest => if c = 0 then 0 else strlen rest + 1

/-- `tcp_client_connected(arg, tpcb, err)`. The value returned by `tcp_write`
is not looked at. -/
def tcp_client_connected (arg : Ptr) (tpcb : Nat) (err : err_t) (w : World) :
    Option (err_t × World) :=
  let es := arg
  if err = ERR_OK then
    let w := tcp_recv tpcb (some .tcp_client_recv) w
    let w := tcp_sent tpcb (some .tcp_client_sent) w
    let w := tcp_write tpcb (message.take (strlen message)) (strlen message)
      TCP_WRITE_FLAG_COPY w
    let w := tcp_output tpcb w
    some (err, w)
  else
    match tcp_client_connection_close tpcb es w with
    | none => none
    | some w => some (err, w)

/-! ## Delivery of notifications by the transport -/

/-- A notification the transport delivers to the server. `m` is the outcome of
the `malloc` made in the handler, `wr` the value `tcp_write` returns there. -/
inductive Event where
  | accept (newpcb : Nat) (err : err_t) (m : Option (Nat × tcp_server_connection_t))
  | recv (tpcb : Nat) (p : Option pbuf) (err : err_t) (wr : err_t)
  | poll (pcb : Nat)
  | error (pcb : Nat) (err : err_t)
  deriving DecidableEq, Repr

/-- Modelled from the spec: when the transport delivers a notification. An
accept can always arrive; the others only on a handle whose hook is set to the
server's handler. -/
def enabled (e : Event) (w : World) : Bool :=
  match e with
  | .accept _ _ _ => true
  | .recv tpcb _ _ _ => decide ((pcbGet w.pcbs tpcb).recv = some .tcp_server_recv)
  | .poll pcb => decide ((pcbGet w.pcbs pcb).poll = some .tcp_server_poll)
  | .error pcb _ => decide ((pcbGet w.pcbs pcb).errf = some .tcp_server_error)

/-- Modelled from the spec: the transport forgets a handle it has deallocated
(as it does before an error notification). -/
def pcb_discard (pcb : Nat) (w : World) : World :=
  { w with pcbs := (pcb, PcbRec.fresh) :: w.pcbs }

/-- Modelled from the spec: delivery of one notification: the handler runs
with the context registered for the handle. The error notification fires after
the transport has deallocated the handle. The listening endpoint has no
context. -/
def deliver (e : Event) (w : World) : Option World :=
  match e with
  | .accept newpcb err m => (tcp_server_accept .null newpcb err m w).map Prod.snd
  | .recv tpcb p err wr =>
    (tcp_server_recv (pcbGet w.pcbs tpcb).callback_arg tpcb p err wr w).map Prod.snd
  | .poll pcb => (tcp_server_poll (pcbGet w.pcbs pcb).callback_arg pcb w).map Prod.snd
  | .error pcb err =>
    tcp_server_error (pcbGet w.pcbs pcb).callback_arg err (pcb_discard pcb w)

/-- Run a sequence of notifications. The result is `none` if one of them is not
deliverable in the state it arrives in, or if its handler faults. -/
def run (evs : List Event) (w : World) : Option World :=
  match evs with
  | [] => some w
  | e :: rest =>
    if enabled e w then
      match deliver e w with
      | some w1 => run rest w1
      | none => none
    else none

/-- The state after program start: the static globals are zero, nothing is
allocated, nothing is registered, no call has been made. -/
def World.init : World :=
  { tcp_connection_state := .null
    client_state := { pcb := none, retries := 0 }
    heap := []
    pcbs := []
    calls := [] }

/-- The state `tcp_server_accept` leaves when it admits `newpcb` with the new
block at `a`: the block initialised and published, then the four calls. -/
def admitted (newpcb a : Nat) (blk : tcp_server_connection_t) (w : World) : World :=
  tcp_poll newpcb (some .tcp_server_poll) 2 (tcp_err newpcb (some .tcp_server_error)
    (tcp_recv newpcb (some .tcp_server_recv) (tcp_arg newpcb (.heap a)
      { w with
        tcp_connection_state := .heap a
        heap := (a, { pcb := some newpcb, buffer := blk.buffer, buflen := 0 }) :: w.heap })))


/-- A handle on which the transport would run a server handler that uses the
context: its data-arrived hook or its error hook is the server's. -/
def hooked (r : PcbRec) : Prop :=
  r.recv = some .tcp_server_recv ∨ r.errf = some .tcp_server_error

/-- The invariant of the server: either the slot is null, nothing is allocated
and no handle is hooked; or the slot refers to the only live block, and a
hooked handle is the one handle of that session and has that block as
context. -/
def SlotInv (w : World) : Prop :=
  (w.tcp_connection_state = .null ∧ w.heap = [] ∧ ∀ h, ¬ hooked (pcbGet w.pcbs h)) ∨
  (∃ a s h0, w.tcp_connection_state = .heap a ∧ w.heap = [(a, s)] ∧
    ∀ h, hooked (pcbGet w.pcbs h) → h = h0 ∧ (pcbGet w.pcbs h).callback_arg = .heap a)

/-! ## States named in the proofs -/

/-- The six transport calls of a teardown of handle `tpcb`, in program order:
context and hooks are cleared, then the close is requested. -/
def teardown_calls (tpcb : Nat) : List Call :=
  [Call.tcp_arg tpcb .null, Call.tcp_sent tpcb none, Call.tcp_recv tpcb none,
   Call.tcp_poll tpcb none 0, Call.tcp_err tpcb none, Call.tcp_close tpcb]

/-- The transport part of `tcp_server_connection_close`: the state after the
six calls. -/
def detached (tpcb : Nat) (w : World) : World :=
  tcp_close tpcb (tcp_err tpcb none (tcp_poll tpcb none 0 (tcp_recv tpcb none
    (tcp_sent tpcb none (tcp_arg tpcb .null w)))))

/-! ## Concrete inputs -/

/-- A session block whose buffer holds 256 zero bytes and stale length 7. -/
def exSession : tcp_server_connection_t :=
  { pcb := some 1, buffer := List.replicate 256 0, buflen := 7 }

/-- A state with one admitted connection: handle 1, session at address 100. -/
def exWorld : World :=
  { tcp_connection_state := .heap 100
    client_state := { pcb := none, retries := 0 }
    heap := [(100, exSession)]
    pcbs := [(1, { callback_arg := .heap 100, recv := some .tcp_server_recv, sent := none,
                   poll := some .tcp_server_poll, pollinterval := 2,
                   errf := some .tcp_server_error })]
    calls := [] }

/-- A data unit of three bytes in two segments: `len = 2`, `tot_len = 3`. -/
def exChain : pbuf := { payload := [104, 105], next := [[33]] }

/-- A data unit of 257 bytes in one segment. -/
def exBig : pbuf := { payload := List.replicate 257 65, next := [] }


/-- A run from program start: connection 1 is admitted, then delivers the
three-byte chain, which is echoed. -/
def exEvents : List Event :=
  [ .accept 1 ERR_OK (some (100, { pcb := none, buffer := [9, 9, 9, 9], buflen := 7 })),
    .recv 1 (some exChain) ERR_OK ERR_OK ]

/-- The state at the end of `exEvents`. -/
def exAfter : World :=
  { tcp_connection_state := .heap 100
    client_state := { pcb := none, retries := 0 }
    heap := [(100, { pcb := some 1, buffer := [104, 105, 33, 9], buflen := 3 })]
    pcbs :=
      [(1, { callback_arg := .heap 100, recv := some .tcp_server_recv, sent := none,
             poll := some .tcp_server_poll, pollinterval := 2,
             errf := some .tcp_server_error }),
       (1, { callback_arg := .heap 100, recv := some .tcp_server_recv, sent := none,
             poll := none, pollinterval := 0, errf := some .tcp_server_error }),
       (1, { callback_arg := .heap 100, recv := some .tcp_server_recv, sent := none,
             poll := none, pollinterval := 0, errf := none }),
       (1, { callback_arg := .heap 100, recv := none, sent := none,
             poll := none, pollinterval := 0, errf := none })]
    calls :=
      [Call.tcp_arg 1 (.heap 100), Call.tcp_recv 1 (some .tcp_server_recv),
       Call.tcp_err 1 (some .tcp_server_error), Call.tcp_poll 1 (some .tcp_server_poll) 2,
       Call.tcp_recved 1 3, Call.tcp_write 1 [104, 105, 33] 3 1, Call.tcp_output 1,
       Call.pbuf_free exChain] }

/-- The 25 characters of the greeting, without the terminating zero. -/
def greeting : List Byte :=
  [72, 101, 108, 108, 111, 32, 83, 84, 77, 51, 50, 32, 76, 119, 73, 80, 32,
   67, 108, 105, 101, 110, 116, 33, 10]

/-! ## Lemmas on memory and on the copy of a data unit -/

theorem heapGet_heapSet_same (h : List (Nat × tcp_server_connection_t)) (a : Nat)
    (s v : tcp_server_connection_t) (hs : heapGet h a = some s) :
    heapGet (heapSet h a v) a = some v := by
  induction h with
  | nil => simp [heapGet] at hs
  | cons e rest ih =>
    by_cases he : e.1 = a
    · simp [heapSet, heapGet, he]
    · simp only [heapGet, he, if_false] at hs
      simp [heapSet, heapGet, he, ih hs]

theorem heapGet_heapSet_other (h : List (Nat × tcp_server_connection_t)) (a b : Nat)
    (v : tcp_server_connection_t) (hab : b ≠ a) :
    heapGet (heapSet h a v) b = heapGet h b := by
  induction h with
  | nil => simp [heapSet, heapGet]
  | cons e rest ih =>
    by_cases he : e.1 = a
    · have hb : ¬ e.1 = b := by rw [he]; exact fun h => hab h.symm
      simp [heapSet, heapGet, he, ih, hb, hab.symm]
    · simp [heapSet, heapGet, he, ih]

theorem heapSet_heapSet (h : List (Nat × tcp_server_connection_t)) (a : Nat)
    (u v : tcp_server_connection_t) :
    heapSet (heapSet h a u) a v = heapSet h a v := by
  induction h with
  | nil => simp [heapSet]
  | cons e rest ih =>
    by_cases he : e.1 = a
    · simp [heapSet, he, ih]
    · simp [heapSet, he, ih]

theorem heapGet_heapFree_same (h : List (Nat × tcp_server_connection_t)) (a : Nat) :
    heapGet (heapFree h a) a = none := by
  induction h with
  | nil => simp [heapFree, heapGet]
  | cons e rest ih =>
    by_cases he : e.1 = a
    · simp [heapFree, he, ih]
    · simp [heapFree, heapGet, he, ih]

theorem heapGet_heapFree_other (h : List (Nat × tcp_server_connection_t)) (a b : Nat)
    (hab : b ≠ a) : heapGet (heapFree h a) b = heapGet h b := by
  induction h with
  | nil => simp [heapFree, heapGet]
  | cons e rest ih =>
    by_cases he : e.1 = a
    · have hb : ¬ e.1 = b := by rw [he]; exact fun h => hab h.symm
      simp [heapFree, heapGet, he, ih, hab.symm]
    · simp [heapFree, heapGet, he, ih]

theorem pbuf_copy_walk_zero (segs : List (List Byte)) (len : Nat) :
    pbuf_copy_walk segs len 0 = segs.flatten.take len := by
  induction segs generalizing len with
  | nil => simp [pbuf_copy_walk]
  | cons seg rest ih =>
    by_cases hl : len = 0
    · simp [pbuf_copy_walk, hl]
    · simp only [pbuf_copy_walk, hl, if_false, ne_eq, not_true_eq_false, false_and,
        List.drop_zero, Nat.sub_zero, ih, List.flatten_cons, List.take_append_eq_append_take]
      by_cases hc : seg.length ≤ len
      · simp [Nat.min_eq_left hc, List.take_of_length_le hc]
      · have hc1 : len ≤ seg.length := Nat.le_of_not_le hc
        simp [Nat.min_eq_right hc1, Nat.sub_eq_zero_of_le hc1]

theorem pbuf_bytes_length (p : pbuf) : p.bytes.length = p.tot_len := by
  simp [pbuf.bytes, pbuf.tot_len, List.length_flatten]

theorem pbuf_copy_whole (p : pbuf) (dataptr : List Byte) :
    pbuf_copy_partial p dataptr p.tot_len 0 = p.bytes ++ dataptr.drop p.tot_len := by
  have h : (p.payload :: p.next).flatten = p.bytes := by simp [pbuf.bytes]
  have hl := pbuf_bytes_length p
  simp only [ pbuf_copy_partial, pbuf_copy_walk_zero, h]
  rw [List.take_of_length_le (Nat.le_of_eq hl), hl]

/-! ## Teardown -/

theorem detached_calls (tpcb : Nat) (w : World) :
    (detached tpcb w).calls = w.calls ++ teardown_calls tpcb := by
  simp [detached, teardown_calls, tcp_close, tcp_err, tcp_poll, tcp_recv, tcp_sent, tcp_arg,
    pcbUpd, call]

theorem detached_pcb_self (tpcb : Nat) (w : World) :
    pcbGet (detached tpcb w).pcbs tpcb = PcbRec.fresh := by
  simp [detached, tcp_close, tcp_err, tcp_poll, tcp_recv, tcp_sent, tcp_arg,
    pcbUpd, call, pcbGet, PcbRec.fresh]

theorem detached_pcb_other (tpcb h : Nat) (w : World) (hne : h ≠ tpcb) :
    pcbGet (detached tpcb w).pcbs h = pcbGet w.pcbs h := by
  have hne1 : ¬ tpcb = h := fun e => hne e.symm
  simp [detached, tcp_close, tcp_err, tcp_poll, tcp_recv, tcp_sent, tcp_arg,
    pcbUpd, call, pcbGet, hne1]

theorem close_null_eq (tpcb : Nat) (w : World) :
    tcp_server_connection_close tpcb .null w = some (detached tpcb w) := by
  simp [tcp_server_connection_close, detached]

theorem close_heap_eq (tpcb a : Nat) (s : tcp_server_connection_t) (w : World)
    (hact : heapGet w.heap a = some s) :
    tcp_server_connection_close tpcb (.heap a) w =
      some { detached tpcb w with heap := heapFree w.heap a, tcp_connection_state := .null } := by
  have h : heapGet (detached tpcb w).heap a = some s := hact
  simp only [tcp_server_connection_close, ne_eq, reduceCtorEq, not_false_eq_true, if_true, free]
  change (match (match heapGet (detached tpcb w).heap a with
    | some _ => some { detached tpcb w with heap := heapFree (detached tpcb w).heap a }
    | none => none) with
    | some w => some { w with tcp_connection_state := Ptr.null }
    | none => none) = _
  rw [h]
  rfl

/-! ## Values of the handlers, case by case -/

/-- The value of `tcp_server_recv` on a data unit that fits the buffer. -/
theorem tcp_server_recv_fit_eq (w : World) (a : Nat) (s : tcp_server_connection_t)
    (tpcb : Nat) (p : pbuf) (wr : err_t)
    (hact : heapGet w.heap a = some s) (hn : p.tot_len ≤ 256) :
    tcp_server_recv (.heap a) tpcb (some p) ERR_OK wr w =
      some (ERR_OK,
        { w with
          heap := heapSet w.heap a
            { s with buffer := p.bytes ++ s.buffer.drop p.tot_len, buflen := (p.tot_len : Int) }
          calls := w.calls ++ [Call.tcp_recved tpcb p.tot_len,
              Call.tcp_write tpcb p.bytes p.tot_len TCP_WRITE_FLAG_COPY]
            ++ (if wr = ERR_OK then [Call.tcp_output tpcb] else [])
            ++ [Call.pbuf_free p] }) := by
  have hl := pbuf_bytes_length p
  have hg1 := heapGet_heapSet_same w.heap a s
    { s with buffer := p.bytes ++ s.buffer.drop p.tot_len } hact
  have hg3 := heapGet_heapSet_same w.heap a s
    { s with buffer := p.bytes ++ s.buffer.drop p.tot_len, buflen := (p.tot_len : Int) } hact
  have htake : List.take p.tot_len (p.bytes ++ s.buffer.drop p.tot_len) = p.bytes := by
    rw [← hl]; simp
  have hmod : ((p.tot_len : Int) % 65536) = (p.tot_len : Int) := by
    apply Int.emod_eq_of_lt
    · exact Int.ofNat_nonneg _
    · omega
  have hlt : ¬ 256 < p.tot_len := by omega
  by_cases hwr : wr = ERR_OK
  · simp [tcp_server_recv, tcp_recved, call, TCP_SERVER_BUF_SIZE, hn, modify, hact,
      pbuf_copy_whole, hg1, hg3, tcp_server_send, deref, tcp_write, tcp_output,
      pbuf_free, heapSet_heapSet, htake, hwr, hmod, hlt]
  · simp [tcp_server_recv, tcp_recved, call, TCP_SERVER_BUF_SIZE, hn, modify, hact,
      pbuf_copy_whole, hg1, hg3, tcp_server_send, deref, tcp_write, tcp_output,
      pbuf_free, heapSet_heapSet, htake, hwr, hmod, hlt]

theorem recv_big_eq (w : World) (arg : Ptr) (tpcb : Nat) (p : pbuf)
    (wr : err_t) (hn : 256 < p.tot_len) :
    tcp_server_recv arg tpcb (some p) ERR_OK wr w =
      some (ERR_OK,
        { w with calls := w.calls ++ [Call.tcp_recved tpcb p.tot_len, Call.pbuf_free p] }) := by
  have h : ¬ p.tot_len ≤ 256 := by omega
  simp [tcp_server_recv, tcp_recved, call, TCP_SERVER_BUF_SIZE, h, pbuf_free]

theorem recv_fin_eq (w : World) (a : Nat) (s : tcp_server_connection_t)
    (tpcb : Nat) (wr : err_t) (hact : heapGet w.heap a = some s) :
    tcp_server_recv (.heap a) tpcb none ERR_OK wr w =
      some (ERR_OK,
        { detached tpcb w with heap := heapFree w.heap a, tcp_connection_state := .null }) := by
  simp [tcp_server_recv, close_heap_eq tpcb a s w hact]

theorem recv_not_ok_eq (w : World) (arg : Ptr) (tpcb : Nat) (p : Option pbuf)
    (err wr : err_t) (herr : err ≠ ERR_OK) :
    tcp_server_recv arg tpcb p err wr w = some (ERR_OK, w) := by
  cases p <;> simp [tcp_server_recv, herr]

theorem error_heap_eq (w : World) (a : Nat) (s : tcp_server_connection_t)
    (err : err_t) (hact : heapGet w.heap a = some s) :
    tcp_server_error (.heap a) err w =
      some { w with heap := heapFree w.heap a, tcp_connection_state := .null } := by
  simp [tcp_server_error, free, hact]

theorem accept_reject_eq (w : World) (arg : Ptr) (newpcb : Nat) (err : err_t)
    (m : Option (Nat × tcp_server_connection_t)) (hocc : w.tcp_connection_state ≠ .null) :
    tcp_server_accept arg newpcb err m w = some (ERR_ABRT, detached newpcb w) := by
  simp [tcp_server_accept, hocc, close_null_eq]

theorem accept_oom_eq (w : World) (arg : Ptr) (newpcb : Nat) (err : err_t)
    (hfree : w.tcp_connection_state = .null) :
    tcp_server_accept arg newpcb err none w = some (ERR_MEM, w) := by
  cases w with
  | mk slot cs heap pcbs calls =>
    simp only at hfree
    subst hfree
    simp [tcp_server_accept, malloc]

theorem accept_admit_eq (w : World) (arg : Ptr) (newpcb : Nat) (err : err_t)
    (a : Nat) (blk : tcp_server_connection_t) (hfree : w.tcp_connection_state = .null) :
    tcp_server_accept arg newpcb err (some (a, blk)) w = some (ERR_OK, admitted newpcb a blk w) := by
  simp [tcp_server_accept, hfree, malloc, modify, heapGet, heapSet, admitted]

theorem admitted_pcb_self (newpcb a : Nat) (blk : tcp_server_connection_t) (w : World) :
    pcbGet (admitted newpcb a blk w).pcbs newpcb =
      { callback_arg := .heap a, recv := some .tcp_server_recv,
        sent := (pcbGet w.pcbs newpcb).sent, poll := some .tcp_server_poll,
        pollinterval := 2, errf := some .tcp_server_error } := by
  simp [admitted, tcp_poll, tcp_err, tcp_recv, tcp_arg, pcbUpd, pcbGet]

theorem admitted_pcb_other (newpcb a h : Nat) (blk : tcp_server_connection_t) (w : World)
    (hne : h ≠ newpcb) : pcbGet (admitted newpcb a blk w).pcbs h = pcbGet w.pcbs h := by
  have hne1 : ¬ newpcb = h := fun e => hne e.symm
  simp [admitted, tcp_poll, tcp_err, tcp_recv, tcp_arg, pcbUpd, pcbGet, hne1]

theorem admitted_calls (newpcb a : Nat) (blk : tcp_server_connection_t) (w : World) :
    (admitted newpcb a blk w).calls = w.calls ++
      [Call.tcp_arg newpcb (.heap a), Call.tcp_recv newpcb (some .tcp_server_recv),
       Call.tcp_err newpcb (some .tcp_server_error),
       Call.tcp_poll newpcb (some .tcp_server_poll) 2] := by
  simp [admitted, tcp_poll, tcp_err, tcp_recv, tcp_arg, pcbUpd]

/-! ## The single-session invariant -/

theorem not_hooked_fresh : ¬ hooked PcbRec.fresh := by
  simp [hooked, PcbRec.fresh]

theorem slotInv_init : SlotInv World.init := by
  refine Or.inl ⟨rfl, rfl, ?_⟩
  intro h
  simpa [World.init, pcbGet] using not_hooked_fresh

theorem hooked_detached (tpcb h : Nat) (w : World)
    (hk : hooked (pcbGet (detached tpcb w).pcbs h)) : h ≠ tpcb ∧ hooked (pcbGet w.pcbs h) := by
  by_cases e : h = tpcb
  · subst e
    rw [detached_pcb_self] at hk
    exact absurd hk not_hooked_fresh
  · rw [detached_pcb_other tpcb h w e] at hk
    exact ⟨e, hk⟩

theorem slotInv_accept (w : World) (newpcb : Nat) (err : err_t)
    (m : Option (Nat × tcp_server_connection_t)) (hinv : SlotInv w) :
    ∃ r w1, tcp_server_accept .null newpcb err m w = some (r, w1) ∧ SlotInv w1 := by
  rcases hinv with ⟨hs, hh, hk⟩ | ⟨a, s, h0, hs, hh, hk⟩
  · cases m with
    | none => exact ⟨_, _, accept_oom_eq w .null newpcb err hs, Or.inl ⟨hs, hh, hk⟩⟩
    | some ab =>
      obtain ⟨a, blk⟩ := ab
      refine ⟨_, _, accept_admit_eq w .null newpcb err a blk hs,
        Or.inr ⟨a, { pcb := some newpcb, buffer := blk.buffer, buflen := 0 }, newpcb, rfl, ?_, ?_⟩⟩
      · show (a, _) :: w.heap = _
        rw [hh]
      · intro h hkh
        by_cases e : h = newpcb
        · subst e
          rw [admitted_pcb_self]
          exact ⟨rfl, rfl⟩
        · rw [admitted_pcb_other newpcb a h blk w e] at hkh
          exact absurd hkh (hk h)
  · have hocc : w.tcp_connection_state ≠ .null := by rw [hs]; simp
    refine ⟨_, _, accept_reject_eq w .null newpcb err m hocc, Or.inr ⟨a, s, h0, hs, hh, ?_⟩⟩
    intro h hkh
    obtain ⟨hne, hold⟩ := hooked_detached newpcb h w hkh
    rw [detached_pcb_other newpcb h w hne]
    exact hk h hold

theorem slotInv_recv (w : World) (tpcb : Nat) (p : Option pbuf) (err wr : err_t)
    (hinv : SlotInv w) (hen : (pcbGet w.pcbs tpcb).recv = some .tcp_server_recv) :
    ∃ r w1, tcp_server_recv (pcbGet w.pcbs tpcb).callback_arg tpcb p err wr w = some (r, w1)
      ∧ SlotInv w1 := by
  have hkt : hooked (pcbGet w.pcbs tpcb) := Or.inl hen
  rcases hinv with ⟨hs, hh, hk⟩ | ⟨a, s, h0, hs, hh, hk⟩
  · exact absurd hkt (hk tpcb)
  · obtain ⟨ht0, harg⟩ := hk tpcb hkt
    rw [harg]
    have hact : heapGet w.heap a = some s := by simp [hh, heapGet]
    by_cases herr : err = ERR_OK
    · subst herr
      cases p with
      | none =>
        refine ⟨_, _, recv_fin_eq w a s tpcb wr hact, Or.inl ⟨rfl, ?_, ?_⟩⟩
        · show heapFree w.heap a = []
          simp [hh, heapFree]
        · intro h hkh
          obtain ⟨hne, hold⟩ := hooked_detached tpcb h w hkh
          exact hne ((hk h hold).1.trans ht0.symm)
      | some pb =>
        by_cases hfit : pb.tot_len ≤ 256
        · refine ⟨_, _, tcp_server_recv_fit_eq w a s tpcb pb wr hact hfit,
            Or.inr ⟨a, { s with buffer := pb.bytes ++ s.buffer.drop pb.tot_len,
                                buflen := (pb.tot_len : Int) }, h0, hs, ?_, hk⟩⟩
          show heapSet w.heap a _ = _
          simp [hh, heapSet]
        · refine ⟨_, _, recv_big_eq w (.heap a) tpcb pb wr (by omega),
            Or.inr ⟨a, s, h0, hs, hh, hk⟩⟩
    · exact ⟨_, _, recv_not_ok_eq w (.heap a) tpcb p err wr herr, Or.inr ⟨a, s, h0, hs, hh, hk⟩⟩

theorem slotInv_error (w : World) (pcb : Nat) (err : err_t)
    (hinv : SlotInv w) (hen : (pcbGet w.pcbs pcb).errf = some .tcp_server_error) :
    ∃ w1, tcp_server_error (pcbGet w.pcbs pcb).callback_arg err (pcb_discard pcb w) = some w1
      ∧ SlotInv w1 := by
  have hkt : hooked (pcbGet w.pcbs pcb) := Or.inr hen
  rcases hinv with ⟨hs, hh, hk⟩ | ⟨a, s, h0, hs, hh, hk⟩
  · exact absurd hkt (hk pcb)
  · obtain ⟨ht0, harg⟩ := hk pcb hkt
    rw [harg]
    have hact : heapGet (pcb_discard pcb w).heap a = some s := by
      simp [pcb_discard, hh, heapGet]
    refine ⟨_, error_heap_eq (pcb_discard pcb w) a s err hact, Or.inl ⟨rfl, ?_, ?_⟩⟩
    · show heapFree w.heap a = []
      simp [hh, heapFree]
    · intro h hkh
      by_cases e : h = pcb
      · subst e
        have : pcbGet (pcb_discard h w).pcbs h = PcbRec.fresh := by simp [pcb_discard, pcbGet]
        exact not_hooked_fresh (this ▸ hkh)
      · have hne1 : ¬ pcb = h := fun x => e x.symm
        have : pcbGet (pcb_discard pcb w).pcbs h = pcbGet w.pcbs h := by
          simp [pcb_discard, pcbGet, hne1]
        have hold : hooked (pcbGet w.pcbs h) := this ▸ hkh
        exact e ((hk h hold).1.trans ht0.symm)

/-- Every deliverable notification runs its handler without a fault and keeps
the invariant. -/
theorem slotInv_deliver (e : Event) (w : World) (hinv : SlotInv w)
    (hen : enabled e w = true) : ∃ w1, deliver e w = some w1 ∧ SlotInv w1 := by
  cases e with
  | accept newpcb err m =>
    obtain ⟨r, w1, h1, h2⟩ := slotInv_accept w newpcb err m hinv
    exact ⟨w1, by simp [deliver, h1], h2⟩
  | recv tpcb p err wr =>
    have hen1 : (pcbGet w.pcbs tpcb).recv = some .tcp_server_recv := by
      simpa [enabled] using hen
    obtain ⟨r, w1, h1, h2⟩ := slotInv_recv w tpcb p err wr hinv hen1
    exact ⟨w1, by simp [deliver, h1], h2⟩
  | poll pcb => exact ⟨w, by simp [deliver, tcp_server_poll], hinv⟩
  | error pcb err =>
    have hen1 : (pcbGet w.pcbs pcb).errf = some .tcp_server_error := by
      simpa [enabled] using hen
    obtain ⟨w1, h1, h2⟩ := slotInv_error w pcb err hinv hen1
    exact ⟨w1, by simp [deliver, h1], h2⟩

theorem slotInv_run (evs : List Event) (w0 w : World) (hinv : SlotInv w0)
    (hrun : run evs w0 = some w) : SlotInv w := by
  induction evs generalizing w0 with
  | nil =>
    simp only [run, Option.some.injEq] at hrun
    exact hrun ▸ hinv
  | cons e rest ih =>
    by_cases hen : enabled e w0 = true
    · obtain ⟨w1, h1, h2⟩ := slotInv_deliver e w0 hinv hen
      simp only [run, hen, if_true, h1] at hrun
      exact ih w1 h2 hrun
    · simp [run, hen] at hrun

/-- A run fails only at a notification that is not deliverable: if every
notification is deliverable when it arrives, no handler faults. -/
theorem run_none_only_if_disabled (evs : List Event) (w0 : World) (hinv : SlotInv w0)
    (hrun : run evs w0 = none) :
    ∃ pre e post w, evs = pre ++ e :: post ∧ run pre w0 = some w ∧ enabled e w = false := by
  induction evs generalizing w0 with
  | nil => simp [run] at hrun
  | cons e rest ih =>
    by_cases hen : enabled e w0 = true
    · obtain ⟨w1, h1, h2⟩ := slotInv_deliver e w0 hinv hen
      simp only [run, hen, if_true, h1] at hrun
      obtain ⟨pre, e1, post, w, he, hr, hd⟩ := ih w1 h2 hrun
      refine ⟨e :: pre, e1, post, w, by simp [he], ?_, hd⟩
      simp [run, hen, h1, hr]
    · refine ⟨[], e, rest, w0, rfl, rfl, ?_⟩
      simpa using hen

/-! ## The server: data arrived -/

/-- C1: for an active session (a live block at `a`, passed as context) and a
data unit of total length at most 256 delivered with status `ERR_OK`,
`tcp_server_recv` returns `ERR_OK`, and its transport calls are, in this order:
`tcp_recved` of exactly `tot_len`, `tcp_write` of exactly the delivered bytes
with length `tot_len` and the copy flag, `tcp_output` if and only if `tcp_write`
returned `ERR_OK`, and the release of the data unit. Afterwards the session's
valid length is `tot_len` and the first `tot_len` bytes of its buffer are the
delivered bytes in order; the rest of the buffer, the stored handle, the other
blocks, the global slot and the registrations are as before. -/
theorem tcp_server_recv_echoes_fitting_data (w : World) (a : Nat)
    (s : tcp_server_connection_t) (tpcb : Nat) (p : pbuf) (wr : err_t)
    (hact : heapGet w.heap a = some s) (hn : p.tot_len ≤ 256) :
    ∃ w1 s1,
      tcp_server_recv (.heap a) tpcb (some p) ERR_OK wr w = some (ERR_OK, w1) ∧
      w1.calls = w.calls ++ [Call.tcp_recved tpcb p.tot_len,
          Call.tcp_write tpcb p.bytes p.tot_len TCP_WRITE_FLAG_COPY]
        ++ (if wr = ERR_OK then [Call.tcp_output tpcb] else [])
        ++ [Call.pbuf_free p] ∧
      heapGet w1.heap a = some s1 ∧
      s1.buflen = (p.tot_len : Int) ∧
      s1.buffer.take p.tot_len = p.bytes ∧
      s1.buffer.drop p.tot_len = s.buffer.drop p.tot_len ∧
      s1.pcb = s.pcb ∧
      (∀ b, b ≠ a → heapGet w1.heap b = heapGet w.heap b) ∧
      w1.tcp_connection_state = w.tcp_connection_state ∧
      w1.pcbs = w.pcbs ∧
      w1.client_state = w.client_state := by
  have hl := pbuf_bytes_length p
  refine ⟨_, _, tcp_server_recv_fit_eq w a s tpcb p wr hact hn, rfl,
    heapGet_heapSet_same w.heap a s _ hact, rfl, ?_, ?_, rfl, ?_, rfl, rfl, rfl⟩
  · show List.take p.tot_len (p.bytes ++ s.buffer.drop p.tot_len) = p.bytes
    rw [← hl]; simp
  · show List.drop p.tot_len (p.bytes ++ s.buffer.drop p.tot_len) = s.buffer.drop p.tot_len
    rw [← hl]; simp
  · intro b hb
    exact heapGet_heapSet_other w.heap a b _ hb

/-- C1 at a concrete input: the three-byte chain delivered to the session at
address 100, with `tcp_write` succeeding. -/
theorem tcp_server_recv_echoes_fitting_data_witness :
    ∃ w1 s1,
      tcp_server_recv (.heap 100) 1 (some exChain) ERR_OK ERR_OK exWorld = some (ERR_OK, w1) ∧
      w1.calls = exWorld.calls ++ [Call.tcp_recved 1 exChain.tot_len,
          Call.tcp_write 1 exChain.bytes exChain.tot_len TCP_WRITE_FLAG_COPY]
        ++ (if ERR_OK = ERR_OK then [Call.tcp_output 1] else [])
        ++ [Call.pbuf_free exChain] ∧
      heapGet w1.heap 100 = some s1 ∧
      s1.buflen = (exChain.tot_len : Int) ∧
      s1.buffer.take exChain.tot_len = exChain.bytes ∧
      s1.buffer.drop exChain.tot_len = exSession.buffer.drop exChain.tot_len ∧
      s1.pcb = exSession.pcb ∧
      (∀ b, b ≠ 100 → heapGet w1.heap b = heapGet exWorld.heap b) ∧
      w1.tcp_connection_state = exWorld.tcp_connection_state ∧
      w1.pcbs = exWorld.pcbs ∧
      w1.client_state = exWorld.client_state :=
  tcp_server_recv_echoes_fitting_data exWorld 100 exSession 1 exChain ERR_OK
    (by rfl) (by decide)

/-- C2: for a data unit of total length above 256 delivered with status
`ERR_OK`, `tcp_server_recv` returns `ERR_OK` and its only transport calls are
`tcp_recved` of exactly `tot_len` and the release of the data unit: there is no
`tcp_write` and no `tcp_output`. Memory (every session's buffer and valid
length), the global slot and the registrations are unchanged. This holds
whatever the context is, in particular for an active session. -/
theorem tcp_server_recv_drops_oversized (w : World) (arg : Ptr) (tpcb : Nat) (p : pbuf)
    (wr : err_t) (hn : 256 < p.tot_len) :
    tcp_server_recv arg tpcb (some p) ERR_OK wr w =
      some (ERR_OK,
        { w with calls := w.calls ++ [Call.tcp_recved tpcb p.tot_len, Call.pbuf_free p] }) :=
  recv_big_eq w arg tpcb p wr hn

/-- C2 at a concrete input: 257 bytes delivered to the session at address 100. -/
theorem tcp_server_recv_drops_oversized_witness :
    256 < exBig.tot_len ∧
    tcp_server_recv (.heap 100) 1 (some exBig) ERR_OK ERR_OK exWorld =
      some (ERR_OK,
        { exWorld with
          calls := exWorld.calls ++ [Call.tcp_recved 1 exBig.tot_len, Call.pbuf_free exBig] }) :=
  ⟨by simp only [exBig, pbuf.tot_len, List.length_replicate, List.map_nil, List.sum_nil]; decide,
    tcp_server_recv_drops_oversized exWorld (.heap 100) 1 exBig ERR_OK
      (by simp only [exBig, pbuf.tot_len, List.length_replicate, List.map_nil, List.sum_nil]
          decide)⟩

/-- C5: for an active session (a live block at `a`, passed as context),
`tcp_server_recv` invoked with status `ERR_OK` and no data unit returns
`ERR_OK`; its transport calls are exactly the teardown calls on the handle, in
this order: context cleared, sent, recv, poll and err hooks cleared, then
`tcp_close` (so there is no `tcp_write` and no `tcp_output`). Afterwards the
handle has no context and no hook, the block at `a` is freed, the other blocks
are untouched, and the global slot is null. -/
theorem tcp_server_recv_fin_teardown (w : World) (a : Nat) (s : tcp_server_connection_t)
    (tpcb : Nat) (wr : err_t) (hact : heapGet w.heap a = some s) :
    ∃ w1,
      tcp_server_recv (.heap a) tpcb none ERR_OK wr w = some (ERR_OK, w1) ∧
      w1.calls = w.calls ++
        [Call.tcp_arg tpcb .null, Call.tcp_sent tpcb none, Call.tcp_recv tpcb none,
         Call.tcp_poll tpcb none 0, Call.tcp_err tpcb none, Call.tcp_close tpcb] ∧
      pcbGet w1.pcbs tpcb = PcbRec.fresh ∧
      heapGet w1.heap a = none ∧
      w1.heap = heapFree w.heap a ∧
      (∀ b, b ≠ a → heapGet w1.heap b = heapGet w.heap b) ∧
      w1.tcp_connection_state = .null := by
  refine ⟨{ detached tpcb w with heap := heapFree w.heap a, tcp_connection_state := .null },
    recv_fin_eq w a s tpcb wr hact, detached_calls tpcb w, detached_pcb_self tpcb w,
    heapGet_heapFree_same w.heap a, rfl, ?_, rfl⟩
  intro b hb
  exact heapGet_heapFree_other w.heap a b hb

/-- C5 at a concrete input: the peer of handle 1 half-closes. -/
theorem tcp_server_recv_fin_teardown_witness :
    ∃ w1,
      tcp_server_recv (.heap 100) 1 none ERR_OK ERR_OK exWorld = some (ERR_OK, w1) ∧
      w1.calls = exWorld.calls ++
        [Call.tcp_arg 1 .null, Call.tcp_sent 1 none, Call.tcp_recv 1 none,
         Call.tcp_poll 1 none 0, Call.tcp_err 1 none, Call.tcp_close 1] ∧
      pcbGet w1.pcbs 1 = PcbRec.fresh ∧
      heapGet w1.heap 100 = none ∧
      w1.heap = heapFree exWorld.heap 100 ∧
      (∀ b, b ≠ 100 → heapGet w1.heap b = heapGet exWorld.heap b) ∧
      w1.tcp_connection_state = .null :=
  tcp_server_recv_fin_teardown exWorld 100 exSession 1 ERR_OK (by rfl)

/-! ## The server: accept and error -/

/-- C3: when the global slot is occupied by session A (a live block at `a`),
`tcp_server_accept` on a handle `newpcb` returns `ERR_ABRT` whatever the
allocator would have answered; it allocates nothing and changes no block, so
session A keeps its handle, buffer and valid length; the global slot is
unchanged; its transport calls are exactly the teardown calls on `newpcb`
(context and all hooks set to none, then `tcp_close`), after which `newpcb` has
no context and no hook; the registrations of all other handles are unchanged. -/
theorem tcp_server_accept_rejects_when_occupied (w : World) (a : Nat)
    (sA : tcp_server_connection_t) (arg : Ptr) (newpcb : Nat) (err : err_t)
    (m : Option (Nat × tcp_server_connection_t))
    (hocc : w.tcp_connection_state = .heap a) (hA : heapGet w.heap a = some sA) :
    ∃ w1,
      tcp_server_accept arg newpcb err m w = some (ERR_ABRT, w1) ∧
      w1.heap = w.heap ∧
      heapGet w1.heap a = some sA ∧
      w1.tcp_connection_state = .heap a ∧
      w1.calls = w.calls ++
        [Call.tcp_arg newpcb .null, Call.tcp_sent newpcb none, Call.tcp_recv newpcb none,
         Call.tcp_poll newpcb none 0, Call.tcp_err newpcb none, Call.tcp_close newpcb] ∧
      pcbGet w1.pcbs newpcb = PcbRec.fresh ∧
      (∀ h, h ≠ newpcb → pcbGet w1.pcbs h = pcbGet w.pcbs h) := by
  have hne : w.tcp_connection_state ≠ .null := by rw [hocc]; simp
  refine ⟨detached newpcb w, accept_reject_eq w arg newpcb err m hne, rfl, hA, hocc,
    detached_calls newpcb w, detached_pcb_self newpcb w, ?_⟩
  intro h hh
  exact detached_pcb_other newpcb h w hh

/-- C3 at a concrete input: handle 2 arrives while handle 1 is being served. -/
theorem tcp_server_accept_rejects_when_occupied_witness :
    ∃ w1,
      tcp_server_accept .null 2 ERR_OK (some (200, exSession)) exWorld = some (ERR_ABRT, w1) ∧
      w1.heap = exWorld.heap ∧
      heapGet w1.heap 100 = some exSession ∧
      w1.tcp_connection_state = .heap 100 ∧
      w1.calls = exWorld.calls ++
        [Call.tcp_arg 2 .null, Call.tcp_sent 2 none, Call.tcp_recv 2 none,
         Call.tcp_poll 2 none 0, Call.tcp_err 2 none, Call.tcp_close 2] ∧
      pcbGet w1.pcbs 2 = PcbRec.fresh ∧
      (∀ h, h ≠ 2 → pcbGet w1.pcbs h = pcbGet exWorld.pcbs h) :=
  tcp_server_accept_rejects_when_occupied exWorld 100 exSession .null 2 ERR_OK
    (some (200, exSession)) (by rfl) (by rfl)

/-- C7: when the global slot is null and `malloc` succeeds with a block at `a`,
`tcp_server_accept` on `newpcb` returns `ERR_OK`; the new block is added to the
live blocks with stored handle `newpcb` and valid length 0 (its buffer is
whatever `malloc` delivered), and the global slot refers to it; the transport
calls are exactly `tcp_arg` with that block, `tcp_recv` with `tcp_server_recv`,
`tcp_err` with `tcp_server_error`, and `tcp_poll` with `tcp_server_poll` and
interval 2, in this order, so no `tcp_sent` call is made and the sent hook of
`newpcb` is what it was. -/
theorem tcp_server_accept_admits (w : World) (arg : Ptr) (newpcb : Nat) (err : err_t)
    (a : Nat) (blk : tcp_server_connection_t)
    (hfree : w.tcp_connection_state = .null) :
    ∃ w1,
      tcp_server_accept arg newpcb err (some (a, blk)) w = some (ERR_OK, w1) ∧
      w1.tcp_connection_state = .heap a ∧
      w1.heap = (a, { pcb := some newpcb, buffer := blk.buffer, buflen := 0 }) :: w.heap ∧
      heapGet w1.heap a = some { pcb := some newpcb, buffer := blk.buffer, buflen := 0 } ∧
      w1.calls = w.calls ++
        [Call.tcp_arg newpcb (.heap a), Call.tcp_recv newpcb (some .tcp_server_recv),
         Call.tcp_err newpcb (some .tcp_server_error),
         Call.tcp_poll newpcb (some .tcp_server_poll) 2] ∧
      pcbGet w1.pcbs newpcb =
        { callback_arg := .heap a, recv := some .tcp_server_recv,
          sent := (pcbGet w.pcbs newpcb).sent, poll := some .tcp_server_poll,
          pollinterval := 2, errf := some .tcp_server_error } ∧
      (∀ h, h ≠ newpcb → pcbGet w1.pcbs h = pcbGet w.pcbs h) := by
  refine ⟨admitted newpcb a blk w, accept_admit_eq w arg newpcb err a blk hfree, rfl, rfl, ?_,
    admitted_calls newpcb a blk w, admitted_pcb_self newpcb a blk w, ?_⟩
  · show heapGet ((a, _) :: w.heap) a = _
    simp [heapGet]
  · intro h hh
    exact admitted_pcb_other newpcb a h blk w hh

/-- C7 at a concrete input: the first connection after program start. -/
theorem tcp_server_accept_admits_witness :
    ∃ w1,
      tcp_server_accept .null 1 ERR_OK (some (100, exSession)) World.init = some (ERR_OK, w1) ∧
      w1.tcp_connection_state = .heap 100 ∧
      w1.heap = (100, { pcb := some 1, buffer := exSession.buffer, buflen := 0 })
        :: World.init.heap ∧
      heapGet w1.heap 100 = some { pcb := some 1, buffer := exSession.buffer, buflen := 0 } ∧
      w1.calls = World.init.calls ++
        [Call.tcp_arg 1 (.heap 100), Call.tcp_recv 1 (some .tcp_server_recv),
         Call.tcp_err 1 (some .tcp_server_error),
         Call.tcp_poll 1 (some .tcp_server_poll) 2] ∧
      pcbGet w1.pcbs 1 =
        { callback_arg := .heap 100, recv := some .tcp_server_recv,
          sent := (pcbGet World.init.pcbs 1).sent, poll := some .tcp_server_poll,
          pollinterval := 2, errf := some .tcp_server_error } ∧
      (∀ h, h ≠ 1 → pcbGet w1.pcbs h = pcbGet World.init.pcbs h) :=
  tcp_server_accept_admits World.init .null 1 ERR_OK 100 exSession (by rfl)

/-- C8: when the global slot is null and `malloc` fails, `tcp_server_accept`
returns `ERR_MEM` and the state is exactly what it was: the global slot is
still null, no block has been added, no transport call has been made and no
context or hook has been registered on the new handle. -/
theorem tcp_server_accept_out_of_memory (w : World) (arg : Ptr) (newpcb : Nat) (err : err_t)
    (hfree : w.tcp_connection_state = .null) :
    tcp_server_accept arg newpcb err none w = some (ERR_MEM, w) ∧
      w.tcp_connection_state = .null :=
  ⟨accept_oom_eq w arg newpcb err hfree, hfree⟩

/-- C8 at a concrete input: allocation fails for the first connection. -/
theorem tcp_server_accept_out_of_memory_witness :
    tcp_server_accept .null 1 ERR_OK none World.init = some (ERR_MEM, World.init) ∧
      World.init.tcp_connection_state = .null :=
  tcp_server_accept_out_of_memory World.init .null 1 ERR_OK (by rfl)

/-- C6: `tcp_server_error` invoked with an active session (a live block at `a`)
as context and any status frees that block and nulls the global slot, and makes
no transport call and no change to any registration; invoked with a null
context it changes nothing. -/
theorem tcp_server_error_frees_session (w : World) (a : Nat) (s : tcp_server_connection_t)
    (err : err_t) (hact : heapGet w.heap a = some s) :
    tcp_server_error (.heap a) err w =
        some { w with heap := heapFree w.heap a, tcp_connection_state := .null } ∧
      heapGet (heapFree w.heap a) a = none ∧
      tcp_server_error .null err w = some w := by
  refine ⟨error_heap_eq w a s err hact, heapGet_heapFree_same w.heap a, ?_⟩
  simp [tcp_server_error]

/-- C6 at a concrete input: a fatal error on the session at address 100. -/
theorem tcp_server_error_frees_session_witness :
    tcp_server_error (.heap 100) ERR_ABRT exWorld =
        some { exWorld with heap := heapFree exWorld.heap 100, tcp_connection_state := .null } ∧
      heapGet (heapFree exWorld.heap 100) 100 = none ∧
      tcp_server_error .null ERR_ABRT exWorld = some exWorld :=
  tcp_server_error_frees_session exWorld 100 exSession ERR_ABRT (by rfl)

/-! ## The server: at most one session -/

/-- C4: in every state reached from program start by a sequence of accept,
data-arrived, poll and error notifications (each delivered on a handle whose
hook is the server's handler, with the context registered for that handle, and
with `malloc` free to succeed or fail), at most one session block is live; the
global slot is non-null exactly when a block is live; and a live block is the
one the slot refers to. Moreover every notification deliverable in such a
state runs its handler without a fault. -/
theorem at_most_one_session (evs : List Event) (w : World)
    (hrun : run evs World.init = some w) :
    w.heap.length ≤ 1 ∧
      (w.tcp_connection_state ≠ .null ↔ w.heap ≠ []) ∧
      (∀ a s, (a, s) ∈ w.heap → w.tcp_connection_state = .heap a ∧ w.heap = [(a, s)]) ∧
      (∀ e, enabled e w = true → (deliver e w).isSome = true) := by
  have hinv := slotInv_run evs World.init w slotInv_init hrun
  have hlive : ∀ e, enabled e w = true → (deliver e w).isSome = true := by
    intro e hen
    obtain ⟨w1, h1, _⟩ := slotInv_deliver e w hinv hen
    simp [h1]
  rcases hinv with ⟨hs, hh, _⟩ | ⟨a, s, h0, hs, hh, _⟩
  · refine ⟨by simp [hh], by simp [hs, hh], ?_, hlive⟩
    intro a s hmem
    simp [hh] at hmem
  · refine ⟨by simp [hh], by simp [hs, hh], ?_, hlive⟩
    intro a1 s1 hmem
    rw [hh] at hmem
    simp only [List.mem_singleton, Prod.mk.injEq] at hmem
    obtain ⟨ha, hs1⟩ := hmem
    subst ha
    subst hs1
    exact ⟨hs, hh⟩

/-- C4 at a concrete run: one connection admitted and one data unit echoed. -/
theorem at_most_one_session_witness :
    run exEvents World.init = some exAfter ∧
      exAfter.heap.length ≤ 1 ∧
      (exAfter.tcp_connection_state ≠ .null ↔ exAfter.heap ≠ []) ∧
      (∀ a s, (a, s) ∈ exAfter.heap →
        exAfter.tcp_connection_state = .heap a ∧ exAfter.heap = [(a, s)]) ∧
      (∀ e, enabled e exAfter = true → (deliver e exAfter).isSome = true) :=
  ⟨by decide, at_most_one_session exEvents exAfter (by decide)⟩

/-! ## The client -/

/-- C9: for every handle and every context, `tcp_client_connected` invoked with
status `ERR_OK` returns `ERR_OK`, and its transport calls are, in this order:
`tcp_recv` with `tcp_client_recv`, `tcp_sent` with `tcp_client_sent`,
`tcp_write` of exactly the 25 bytes of the greeting with length 25 and the copy
flag, and `tcp_output`. There is no `tcp_close`; `client_state`, the server's
slot and the live blocks are unchanged. -/
theorem tcp_client_connected_sends_greeting (w : World) (arg : Ptr) (tpcb : Nat) :
    ∃ w1,
      tcp_client_connected arg tpcb ERR_OK w = some (ERR_OK, w1) ∧
      w1.calls = w.calls ++
        [Call.tcp_recv tpcb (some .tcp_client_recv), Call.tcp_sent tpcb (some .tcp_client_sent),
         Call.tcp_write tpcb greeting 25 TCP_WRITE_FLAG_COPY, Call.tcp_output tpcb] ∧
      greeting = ("Hello STM32 LwIP Client!\n".toList.map fun c => (Fin.ofNat c.toNat : Byte)) ∧
      greeting.length = 25 ∧
      (pcbGet w1.pcbs tpcb).recv = some .tcp_client_recv ∧
      (pcbGet w1.pcbs tpcb).sent = some .tcp_client_sent ∧
      w1.client_state = w.client_state ∧
      w1.tcp_connection_state = w.tcp_connection_state ∧
      w1.heap = w.heap := by
  have hlen : strlen message = 25 := by decide
  have htake : message.take 25 = greeting := by decide
  refine ⟨tcp_output tpcb (tcp_write tpcb greeting 25 TCP_WRITE_FLAG_COPY
      (tcp_sent tpcb (some .tcp_client_sent) (tcp_recv tpcb (some .tcp_client_recv) w))),
    ?_, ?_, by decide, by decide, ?_, ?_, rfl, rfl, rfl⟩
  · simp [tcp_client_connected, hlen, htake]
  · simp [tcp_output, tcp_write, tcp_sent, tcp_recv, pcbUpd, call]
  · simp [tcp_output, tcp_write, tcp_sent, tcp_recv, pcbUpd, call, pcbGet]
  · simp [tcp_output, tcp_write, tcp_sent, tcp_recv, pcbUpd, call, pcbGet]

/-- C10, the code at a chained data unit: for the three-byte chain with a
two-byte first segment, delivered with status `ERR_OK`, `tcp_client_recv`
acknowledges 3 bytes but passes only the 2 bytes of the first segment to
`tcp_write`; the third received byte is not echoed. -/
theorem tcp_client_recv_echoes_first_segment_only :
    exChain.tot_len = 3 ∧ exChain.len = 2 ∧ exChain.bytes = [104, 105, 33] ∧
      (tcp_client_recv .client_state 1 (some exChain) ERR_OK ERR_OK World.init).map
          (fun r => (r.1, r.2.calls)) =
        some (ERR_OK,
          [Call.tcp_recved 1 3, Call.tcp_write 1 [104, 105] 2 TCP_WRITE_FLAG_COPY,
           Call.tcp_output 1, Call.pbuf_free exChain]) := by
  decide

end TcpEcho
